import Mathlib

/-!
Shallow embedding of the metadata-to-chart-data transformation pipeline of
`victorlin/metadata-explorer` (`src/metadata-explorer.py` and the earlier
near-duplicate `src/bokeh-server.py`), together with theorems settling the
frozen claims about its specification.

External collaborators (the tabular library's date parsing, the charting
library's palette, the TTL cache) are embedded by their interface contracts,
as the spec directs; everything that is repository logic is translated
directly from the source.
-/

namespace MetadataExplorer

/-- A cell value of the tabular row set: string, number, or missing
(pandas NaN).  Mirrors the data model of spec section 3. -/
inductive Value where
  | str : String → Value
  | num : Int → Value
  | missing : Value
deriving DecidableEq, Repr

/-- The text representation pandas `astype(str)` produces for a cell:
strings unchanged, numbers rendered in decimal, missing rendered "nan". -/
def Value.coerceStr : Value → String
  | .str s => s
  | .num n => toString n
  | .missing => "nan"

/-- A record: a mapping from column name to value, as an association list. -/
abbrev Row := List (String × Value)

/-- Reading `metadata[c]` for one row: the value stored under column `c`
(missing when the row has no such column). -/
def getCell : Row → String → Value
  | [], _ => Value.missing
  | p :: rest, c => if p.1 == c then p.2 else getCell rest c

/-- Assignment `metadata[c] = v` for one row: overwrite the existing entry for column
`c`, or append the new derived column. -/
def setCell (r : Row) (c : String) (v : Value) : Row :=
  if r.any (fun p => p.1 == c) then
    r.map (fun p => if p.1 == c then (c, v) else p)
  else
    r ++ [(c, v)]

/-- A row set: ordered records sharing one column set
(a pandas DataFrame). -/
structure DataFrame where
  cols : List String
  rows : List Row
deriving DecidableEq, Repr

/-- Adding a derived column name (no-op when already present). -/
def addColName (cols : List String) (c : String) : List String :=
  if c ∈ cols then cols else cols ++ [c]

/-- A calendar month: the (year, month) pair behind a `YYYY-MM` bucket key. -/
structure YM where
  year : Nat
  month : Nat
deriving DecidableEq, Repr

/-- Chronological order on calendar months (how Python compares the
`datetime` objects built by `sort_months`). -/
def YM.le (a b : YM) : Prop :=
  a.year < b.year ∨ (a.year = b.year ∧ a.month ≤ b.month)

/-- Strict chronological order on calendar months. -/
def YM.lt (a b : YM) : Prop :=
  a.year < b.year ∨ (a.year = b.year ∧ a.month < b.month)

instance : DecidableRel YM.le := fun a b => by
  unfold YM.le; infer_instance

instance : DecidableRel YM.lt := fun a b => by
  unfold YM.lt; infer_instance

instance : IsTotal YM YM.le :=
  ⟨fun a b => by unfold YM.le; omega⟩

instance : IsTrans YM YM.le :=
  ⟨fun a b c h₁ h₂ => by unfold YM.le at *; omega⟩

instance : IsAntisymm YM YM.le :=
  ⟨fun a b h₁ h₂ => by
    unfold YM.le at *
    cases a; cases b
    simp_all only [YM.mk.injEq]
    omega⟩

/-- The decimal digit characters used by Python's zero-padded formatting. -/
def digitChar (d : Nat) : Char :=
  match d with
  | 0 => '0' | 1 => '1' | 2 => '2' | 3 => '3' | 4 => '4'
  | 5 => '5' | 6 => '6' | 7 => '7' | 8 => '8' | _ => '9'

/-- Two-digit zero-padded rendering (`%m` for months 1..12). -/
def pad2 (n : Nat) : List Char :=
  [digitChar (n / 10 % 10), digitChar (n % 10)]

/-- Four-digit zero-padded rendering (`%Y` for the years a pandas
timestamp can hold, all of which are at most four digits). -/
def pad4 (n : Nat) : List Char :=
  [digitChar (n / 1000 % 10), digitChar (n / 100 % 10),
   digitChar (n / 10 % 10), digitChar (n % 10)]

/-- Formatting `strftime("%Y-%m")`: the zero-padded `YYYY-MM` bucket key of a month. -/
def formatYM (ym : YM) : String :=
  String.mk (pad4 ym.year ++ '-' :: pad2 ym.month)

/-- Numeric value of a run of digit characters. -/
def digitsVal (ds : List Char) : Nat :=
  ds.foldl (fun a c => 10 * a + (c.toNat - 48)) 0

/-- Parsing via `datetime.strptime(s, "%Y-%m")`, as `Option` instead of an exception:
exactly four year digits, a dash, then a one- or two-digit month whose value
is between 1 and 12, with nothing left over (the regular expressions CPython
compiles for `%Y` and `%m`). -/
def parseYM (s : String) : Option YM :=
  let cs := s.toList
  let ds := cs.takeWhile (fun c => c.isDigit)
  let rest := cs.dropWhile (fun c => c.isDigit)
  if ds.length = 4 then
    match rest with
    | c :: ms =>
      if c = '-' ∧ ms.all (fun c => c.isDigit) ∧ 1 ≤ ms.length ∧
          ms.length ≤ 2 then
        let m := digitsVal ms
        if 1 ≤ m ∧ m ≤ 12 then some ⟨digitsVal ds, m⟩ else none
      else none
    | [] => none
  else none

/-- Embedding of `pandas.Series.unique`: distinct elements in order of first occurrence
(structural accumulator version, so that closed instances evaluate). -/
def pdUniqueAux [DecidableEq α] : List α → List α → List α
  | _, [] => []
  | seen, a :: l =>
    if a ∈ seen then pdUniqueAux seen l else a :: pdUniqueAux (a :: seen) l

/-- Embedding of `metadata[col].unique().tolist()`. -/
def pdUnique [DecidableEq α] (l : List α) : List α :=
  pdUniqueAux [] l

/-- Running an option-valued parse over a list, failing as soon as one
element fails (the comprehension over `strptime` in `sort_months`, where a
single unparseable entry raises). -/
def optTraverse (f : α → Option β) : List α → Option (List β)
  | [] => some []
  | a :: l =>
    match f a, optTraverse f l with
    | some b, some bs => some (b :: bs)
    | _, _ => none

/-- Embedding of `sort_months` (both source files): parse every `YYYY-MM` string with
`strptime`, sort the resulting dates chronologically, and print them back.
Python's `sorted` is a stable comparison sort; since equal dates print to
equal strings, any sort with respect to `YM.le` yields the same output
list, and insertion sort is used here. -/
def sort_months (months : List String) : Option (List String) :=
  match optTraverse parseYM months with
  | none => none
  | some yms => some ((List.insertionSort YM.le yms).map formatYM)

/-- The raw text under column `date_month` of one row (the way the plot
functions read the bucket key back off the frame). -/
def monthKeyOf (r : Row) : String :=
  (getCell r "date_month").coerceStr

/-- Embedding of `metadata['date_month'].unique().tolist()`. -/
def monthKeys (df : DataFrame) : List String :=
  pdUnique (df.rows.map monthKeyOf)

/-- A bucket key that is a zero-padded `YYYY-MM` print of the month it
parses back to (the shape of every key `validate_and_summarize`
attaches). -/
def isValidKey (s : String) : Bool :=
  match parseYM s with
  | some ym => formatYM ym == s
  | none => false

/-- A validated row set: every row carries a well-formed `date_month`
bucket key. -/
def validKeys (df : DataFrame) : Bool :=
  df.rows.all (fun r => isValidKey (monthKeyOf r))

/-- The triple-quoted warning fragment of `validate_and_summarize`
(`src/metadata-explorer.py` lines 78-82, identical in
`src/bokeh-server.py`), emitted when `n_rows - n_valid_rows > 0`. -/
def missingDatesWarning (dropped : Nat) : String :=
  "\n            " ++ toString dropped ++
    " were dropped due to ambiguous/missing date\n            information. A future version of this app may be able to extract months\n            from ambiguous dates.\n        "

/-- The summary `Div` text of `validate_and_summarize`
(`src/metadata-explorer.py` lines 83-85). -/
def summaryText (nRows : Nat) (warning : String) : String :=
  "\n        Metadata has " ++ toString nRows ++ " rows. " ++ warning ++
    "\n    "

/-- One step of the date-to-month derivation: `pd.to_datetime(...,
errors='coerce').dt.strftime("%Y-%m")` on a single row, `none` exactly when
the date is ambiguous or missing (`NaT`).  The library's date parser itself
is the external collaborator `parseMonth`. -/
def monthOfRow (parseMonth : Value → Option YM) (r : Row) : Option YM :=
  parseMonth (getCell r "date")

/-- Embedding of `validate_and_summarize` (`src/metadata-explorer.py` lines 67-87,
`src/bokeh-server.py` lines 35-54): raise when there is no `date` column;
otherwise attach the derived `date_month` key to every row whose date
parses, drop the rest, and emit the summary text.  The exception becomes
the `Except.error` value; the summary side effect becomes the second
component of the result. -/
def validate_and_summarize (parseMonth : Value → Option YM)
    (df : DataFrame) : Except String (DataFrame × String) :=
  if "date" ∈ df.cols then
    let nRows := df.rows.length
    let keep := df.rows.filterMap (fun r =>
      (monthOfRow parseMonth r).map (fun ym =>
        setCell r "date_month" (Value.str (formatYM ym))))
    let warning :=
      if 0 < nRows - keep.length then missingDatesWarning (nRows - keep.length)
      else ""
    Except.ok (⟨addColName df.cols "date_month", keep⟩,
      summaryText nRows warning)
  else
    Except.error "Metadata must have a date column."

/-- The loading-state text `local_file_changed` leaves after its deferred
unit of work runs (`src/metadata-explorer.py` lines 127-135): validation
errors are caught at the load boundary and surfaced as text. -/
def loadBoundaryText (parseMonth : Value → Option YM)
    (df : DataFrame) : String :=
  match validate_and_summarize parseMonth df with
  | Except.error e => "Failed to load: " ++ e
  | Except.ok _ => "Successfully loaded."

/-- Substring test on character lists (used to state what the summary text
does and does not mention). -/
def containsSub (needle : List Char) : List Char → Bool
  | [] => needle.isEmpty
  | c :: rest => needle.isPrefixOf (c :: rest) || containsSub needle rest

/-- Embedding of `plot_per_month` (`src/metadata-explorer.py` lines 170-194): the
chronologically sorted distinct months and the per-month row counts that
feed the bar chart; `none` when a bucket key does not parse back. -/
def plot_per_month (df : DataFrame) : Option (List String × List Nat) :=
  match sort_months (monthKeys df) with
  | none => none
  | some months =>
    some (months,
      months.map (fun m => df.rows.countP (fun r => monthKeyOf r == m)))

/-- Constant `CATEGORY_LIMIT` (both source files). -/
def CATEGORY_LIMIT : Nat := 19

/-- Descending-frequency comparison used to rank the distinct values of the
chosen column (`value_counts(sort=True, ascending=False)`).  The order
among equal frequencies is implementation-defined in the source (the spec
flags it as an open question); the embedding fixes it as the stable
first-occurrence order. -/
def freqGE (vals : List String) (a b : String) : Prop :=
  vals.count b ≤ vals.count a

instance (vals : List String) : DecidableRel (freqGE vals) := fun a b => by
  unfold freqGE; infer_instance

instance (vals : List String) : IsTotal String (freqGE vals) :=
  ⟨fun a b => Nat.le_total (vals.count b) (vals.count a)⟩

instance (vals : List String) : IsTrans String (freqGE vals) :=
  ⟨fun _x _y _z h₁ h₂ => Nat.le_trans h₂ h₁⟩

/-- Embedding of `metadata[column].value_counts(sort=True, ascending=False).index`:
the distinct values ranked by descending frequency. -/
def rankedValues (vals : List String) : List String :=
  List.insertionSort (freqGE vals) (pdUnique vals)

/-- Truncation `...index[:CATEGORY_LIMIT]` as a list (the source wraps it in a set,
whose only use is the membership test below). -/
def topColumnValues (limit : Nat) (vals : List String) : List String :=
  (rankedValues vals).take limit

/-- The `category_adj` value of one raw (string-coerced) value: itself when
retained, the catch-all label otherwise. -/
def adjustValue (limit : Nat) (vals : List String) (v : String) : String :=
  if v ∈ topColumnValues limit vals then v else "other"

/-- The whole `category_adj` column as a value list. -/
def collapseValues (limit : Nat) (vals : List String) : List String :=
  vals.map (adjustValue limit vals)

/-- Coercion `metadata[column].astype(str)` then the raw coerced text of the chosen
column, row by row. -/
def coercedVals (df : DataFrame) (column : String) : List String :=
  df.rows.map (fun r => (getCell r column).coerceStr)

/-- Lines 202-204 of `src/metadata-explorer.py` (133-136 of
`src/bokeh-server.py`): the in-place frame mutation of
`plot_stacked_per_month` — overwrite the chosen column with its string
coercion and attach the derived `category_adj` column. -/
def stackedTransform (limit : Nat) (df : DataFrame) (column : String) :
    DataFrame :=
  let vals := coercedVals df column
  let rows1 := df.rows.map (fun r =>
    setCell r column (Value.str (getCell r column).coerceStr))
  let rows2 := rows1.map (fun r =>
    setCell r "category_adj"
      (Value.str (adjustValue limit vals (getCell r column).coerceStr)))
  ⟨addColName df.cols "category_adj", rows2⟩

/-- The raw text under `category_adj` of one row. -/
def adjKeyOf (r : Row) : String :=
  (getCell r "category_adj").coerceStr

/-- Embedding of `metadata['category_adj'].unique().tolist()`: the distinct labels the
collapsing step produced, in order of first occurrence. -/
def stackedLabels (limit : Nat) (df : DataFrame) (column : String) :
    List String :=
  pdUnique ((stackedTransform limit df column).rows.map adjKeyOf)

/-- The external charting collaborator's qualitative palette: `Category20`
is a mapping defined exactly for 3 through 20 distinct colors; any other
count is a lookup failure (`KeyError`).  The color strings themselves are
irrelevant to the pipeline and are represented by placeholders. -/
def Category20 (n : Nat) : Option (List String) :=
  if 3 ≤ n ∧ n ≤ 20 then
    some ((List.range n).map (fun i => "#color" ++ toString i))
  else none

/-- Embedding of `plot_stacked_per_month` (`src/metadata-explorer.py` lines 197-234,
`src/bokeh-server.py` lines 130-164), generalized over the retained-label
limit: sort the months, mutate the frame (string coercion plus
`category_adj`), read the distinct adjusted labels, look up the palette,
and build the dense month-by-category count matrix.  `none` models the
exceptions: an unparseable bucket key, a missing column (`KeyError` from
`metadata[column]`), or a palette lookup outside 3..20. -/
def plot_stacked_per_monthWith (limit : Nat) (df : DataFrame)
    (column : String) :
    Option (List String × List String × List (String × List Nat)) :=
  match sort_months (monthKeys df) with
  | none => none
  | some months =>
    if column ∈ df.cols then
      match Category20 (stackedLabels limit df column).length with
      | none => none
      | some _ =>
        some (months, stackedLabels limit df column,
          (stackedLabels limit df column).map (fun category =>
            (category, months.map (fun month =>
              (stackedTransform limit df column).rows.countP (fun r =>
                adjKeyOf r == category && monthKeyOf r == month)))))
    else none

/-- Specialization of `plot_stacked_per_month` at the configured `CATEGORY_LIMIT`. -/
def plot_stacked_per_month (df : DataFrame) (column : String) :
    Option (List String × List String × List (String × List Nat)) :=
  plot_stacked_per_monthWith CATEGORY_LIMIT df column

/-- The cache key `@cached(cache=TTLCache(...))` derives from the single
argument of `get_metadata`.  For a remote load the argument is the URL
string, compared by value; for a local upload `local_file_changed` builds
`io.BytesIO(b64decode(file_contents))` — a fresh byte-stream object per
upload event, hashed and compared by object identity (`BytesIO` defines no
value equality), which the embedding records as a fresh handle number. -/
inductive SourceKey where
  | url : String → SourceKey
  | handle : Nat → SourceKey
  | bytesFingerprint : String → SourceKey
deriving DecidableEq, Repr

/-- One stored entry of the external `cachetools.TTLCache` collaborator:
key, cached value, and the instant at which the entry expires. -/
structure CacheEntry (α : Type) where
  key : SourceKey
  val : α
  expiry : Nat
deriving Repr

/-- The memoization state around `get_metadata`, together with a count of
how many times the underlying fetch/parse step has actually run. -/
structure CacheState (α : Type) where
  entries : List (CacheEntry α)
  fetchCount : Nat
deriving Repr

/-- TTL lookup: an entry answers for a key while the current time is before
its expiry. -/
def cacheLookup (entries : List (CacheEntry α)) (now : Nat)
    (k : SourceKey) : Option α :=
  match entries.find? (fun e => decide (e.key = k) && decide (now < e.expiry)) with
  | some e => some e.val
  | none => none

/-- Embedding of `get_metadata` (`src/metadata-explorer.py` lines 90-93) under its
`@cached(cache=TTLCache(maxsize=1024, ttl=24*60*60))` decorator: on a live
hit return the memoized row set; on a miss run `pd.read_csv` +
`validate_and_summarize` (abstracted as `fetchParse`) and store the result
with a time-to-live stamp. -/
def get_metadata (fetchParse : SourceKey → α) (ttl now : Nat)
    (k : SourceKey) (st : CacheState α) : α × CacheState α :=
  match cacheLookup st.entries now k with
  | some v => (v, st)
  | none =>
    let v := fetchParse k
    (v, ⟨⟨k, v, now + ttl⟩ :: st.entries, st.fetchCount + 1⟩)

/-- A sequence of local-upload events as the source runs them: upload `i`
carries some raw bytes and a timestamp, and `local_file_changed` wraps the
bytes in a fresh `BytesIO`, so the cache key is the fresh handle `i` —
the bytes never reach the key. -/
def runLocalUploads (fetchParse : SourceKey → α) (ttl : Nat) :
    Nat → List (String × Nat) → CacheState α → CacheState α
  | _, [], st => st
  | i, (_bytes, t) :: rest, st =>
    runLocalUploads fetchParse ttl (i + 1) rest
      (get_metadata fetchParse ttl t (SourceKey.handle i) st).2

/-- Modelled from the spec: the claimed keying of local uploads by a
raw-bytes fingerprint ("Key: identity of the input source (raw bytes
fingerprint for local uploads, ...)"), which is not what the source builds.
Used only to contrast with `runLocalUploads`. -/
def runLocalUploadsByFingerprint (fetchParse : SourceKey → α) (ttl : Nat) :
    List (String × Nat) → CacheState α → CacheState α
  | [], st => st
  | (bytes, t) :: rest, st =>
    runLocalUploadsByFingerprint fetchParse ttl rest
      (get_metadata fetchParse ttl t (SourceKey.bytesFingerprint bytes) st).2

/-- The empty cache at process start. -/
def emptyCache (α : Type) : CacheState α := ⟨[], 0⟩

/-- Strict chronological order between two bucket-key strings: both parse
and the first month is strictly earlier. -/
def monthLT (a b : String) : Prop :=
  ∃ x y, parseYM a = some x ∧ parseYM b = some y ∧ YM.lt x y

/-- Concrete three-row frame whose summary demonstrates what the text does
not mention: total 3, valid 1, dropped 2. -/
def summaryProbeFrame : DataFrame :=
  ⟨["date"], [[("date", Value.str "2021-01-05")], [("date", Value.str "bad")],
    [("date", Value.str "nope")]]⟩

/-- The summary text of a validation result, read off the `Except` value
(the error text when validation failed). -/
def summaryOf (res : Except String (DataFrame × String)) : String :=
  match res with
  | Except.ok p => p.2
  | Except.error e => e

/-- The valid-row count of a validation result (0 when it failed). -/
def validCountOf (res : Except String (DataFrame × String)) : Nat :=
  match res with
  | Except.ok p => p.1.rows.length
  | Except.error _ => 0

/-- A small concrete stand-in for the external date parser, used to
instantiate witnesses: it recognizes a few fixed ISO dates. -/
def demoParse : Value → Option YM
  | Value.str "2021-01-05" => some ⟨2021, 1⟩
  | Value.str "2021-01-20" => some ⟨2021, 1⟩
  | Value.str "2021-02-10" => some ⟨2021, 2⟩
  | Value.str "2021-02-15" => some ⟨2021, 2⟩
  | Value.str "2021-03-01" => some ⟨2021, 3⟩
  | _ => none

theorem YM.lt_of_le_of_ne {a b : YM} (h : YM.le a b) (hne : a ≠ b) :
    YM.lt a b := by
  obtain ⟨ya, ma⟩ := a
  obtain ⟨yb, mb⟩ := b
  simp only [YM.le] at h
  simp only [YM.lt]
  simp only [ne_eq, YM.mk.injEq, not_and] at hne
  by_cases hy : ya = yb
  · subst hy
    have h1 : ma ≤ mb := by omega
    have h2 : ma ≠ mb := hne rfl
    exact Or.inr ⟨rfl, Nat.lt_of_le_of_ne h1 h2⟩
  · left
    rcases h with h | h
    · exact h
    · exact absurd h.1 hy

theorem isDigit_digitChar (d : Nat) : (digitChar d).isDigit = true := by
  unfold digitChar
  split <;> decide

theorem digitVal_digitChar {d : Nat} (h : d ≤ 9) :
    (digitChar d).toNat - 48 = d := by
  interval_cases d <;> decide

/-- Round trip: `strptime("%Y-%m")` recovers the pair that
`strftime("%Y-%m")` printed, for any month a pandas timestamp can carry. -/
theorem parseYM_formatYM {y m : Nat} (hy : y ≤ 9999) (hm1 : 1 ≤ m)
    (hm2 : m ≤ 12) : parseYM (formatYM ⟨y, m⟩) = some ⟨y, m⟩ := by
  have hd3 : y / 1000 % 10 ≤ 9 := by omega
  have hd2 : y / 100 % 10 ≤ 9 := by omega
  have hd1 : y / 10 % 10 ≤ 9 := by omega
  have hd0 : y % 10 ≤ 9 := by omega
  have he1 : m / 10 % 10 ≤ 9 := by omega
  have he0 : m % 10 ≤ 9 := by omega
  have hneg : ¬ (('-').isDigit = true) := by decide
  unfold parseYM formatYM pad4 pad2
  simp only [String.toList, List.cons_append, List.nil_append]
  simp only [List.takeWhile_cons_of_pos (isDigit_digitChar _),
    List.takeWhile_cons_of_neg hneg,
    List.dropWhile_cons_of_pos (isDigit_digitChar _),
    List.dropWhile_cons_of_neg hneg]
  simp only [List.length_cons, List.length_nil, List.all_cons, List.all_nil,
    isDigit_digitChar, Bool.and_self, Bool.and_true]
  simp only [digitsVal, List.foldl, digitVal_digitChar hd3,
    digitVal_digitChar hd2, digitVal_digitChar hd1, digitVal_digitChar hd0,
    digitVal_digitChar he1, digitVal_digitChar he0]
  have hmv : 10 * (10 * 0 + m / 10 % 10) + m % 10 = m := by omega
  have hyv :
      10 * (10 * (10 * (10 * 0 + y / 1000 % 10) + y / 100 % 10) + y / 10 % 10)
        + y % 10 = y := by omega
  rw [hmv, hyv]
  simp [hm1, hm2]

theorem mem_pdUniqueAux [DecidableEq α] {x : α} :
    ∀ (seen l : List α), x ∈ pdUniqueAux seen l ↔ x ∈ l ∧ x ∉ seen := by
  intro seen l
  induction l generalizing seen with
  | nil => simp [pdUniqueAux]
  | cons a l ih =>
    by_cases h : a ∈ seen
    · simp only [pdUniqueAux, if_pos h, ih, List.mem_cons]
      constructor
      · rintro ⟨hx, hns⟩
        exact ⟨Or.inr hx, hns⟩
      · rintro ⟨hx | hx, hns⟩
        · subst hx; exact absurd h hns
        · exact ⟨hx, hns⟩
    · simp only [pdUniqueAux, if_neg h, List.mem_cons, ih]
      constructor
      · rintro (hx | ⟨hx, hns⟩)
        · subst hx; exact ⟨Or.inl rfl, h⟩
        · push_neg at hns
          exact ⟨Or.inr hx, hns.2⟩
      · rintro ⟨hx | hx, hns⟩
        · exact Or.inl hx
        · by_cases hxa : x = a
          · exact Or.inl hxa
          · exact Or.inr ⟨hx, fun hc => hc.elim hxa hns⟩

theorem mem_pdUnique [DecidableEq α] {x : α} {l : List α} :
    x ∈ pdUnique l ↔ x ∈ l := by
  simp [pdUnique, mem_pdUniqueAux]

theorem nodup_pdUniqueAux [DecidableEq α] :
    ∀ (seen l : List α), (pdUniqueAux seen l).Nodup := by
  intro seen l
  induction l generalizing seen with
  | nil => simp [pdUniqueAux]
  | cons a l ih =>
    by_cases h : a ∈ seen
    · simpa only [pdUniqueAux, if_pos h] using ih seen
    · simp only [pdUniqueAux, if_neg h, List.nodup_cons]
      refine ⟨?_, ih (a :: seen)⟩
      rw [mem_pdUniqueAux]
      rintro ⟨_, hns⟩
      exact hns (List.mem_cons_self a seen)

theorem nodup_pdUnique [DecidableEq α] (l : List α) : (pdUnique l).Nodup :=
  nodup_pdUniqueAux [] l

theorem pdUnique_perm_of_perm [DecidableEq α] {l₁ l₂ : List α}
    (h : l₁.Perm l₂) : (pdUnique l₁).Perm (pdUnique l₂) := by
  rw [List.perm_ext_iff_of_nodup (nodup_pdUnique l₁) (nodup_pdUnique l₂)]
  intro a
  rw [mem_pdUnique, mem_pdUnique]
  exact h.mem_iff

theorem optTraverse_eq_some_of_forall {f : α → Option β} :
    ∀ {l : List α}, (∀ a ∈ l, (f a).isSome) →
      optTraverse f l = some (l.filterMap f) := by
  intro l
  induction l with
  | nil => intro _; rfl
  | cons a l ih =>
    intro h
    have ha := h a (List.mem_cons_self a l)
    obtain ⟨b, hb⟩ := Option.isSome_iff_exists.mp ha
    have ht := ih (fun x hx => h x (List.mem_cons_of_mem a hx))
    simp only [optTraverse, hb, ht, List.filterMap_cons]

theorem optTraverse_isSome_iff {f : α → Option β} :
    ∀ {l : List α}, (optTraverse f l).isSome ↔ ∀ a ∈ l, (f a).isSome := by
  intro l
  induction l with
  | nil => simp [optTraverse]
  | cons a l ih =>
    simp only [optTraverse, List.mem_cons, forall_eq_or_imp]
    cases hfa : f a <;> cases hol : optTraverse f l <;>
      simp_all [Option.isSome]

theorem isPrefixOf_append (l t : List Char) :
    l.isPrefixOf (l ++ t) = true := by
  induction l with
  | nil => simp [List.isPrefixOf]
  | cons a l ih => simp [List.isPrefixOf, ih]

theorem containsSub_nil (l : List Char) : containsSub [] l = true := by
  induction l with
  | nil => simp [containsSub]
  | cons c rest ih => simp [containsSub, List.isPrefixOf]

theorem containsSub_append_self (needle suf : List Char) :
    containsSub needle (needle ++ suf) = true := by
  cases needle with
  | nil => simpa using containsSub_nil suf
  | cons c rest =>
    have h := isPrefixOf_append (c :: rest) suf
    simp only [List.cons_append] at h ⊢
    simp [containsSub, h]

theorem containsSub_of_middle (needle pre suf : List Char) :
    containsSub needle (pre ++ (needle ++ suf)) = true := by
  induction pre with
  | nil => simpa using containsSub_append_self needle suf
  | cons a pre ih =>
    simp only [List.cons_append, containsSub]
    simp [ih]

theorem getCell_overwrite (c : String) (v : Value) :
    ∀ r : Row, r.any (fun p => p.1 == c) = true →
      getCell (r.map (fun p => if p.1 == c then (c, v) else p)) c = v := by
  intro r
  induction r with
  | nil => intro h; simp at h
  | cons p rest ih =>
    intro h
    cases hp : (p.1 == c) with
    | true =>
      rw [List.map_cons, if_pos hp]
      simp [getCell]
    | false =>
      simp only [List.any_cons, hp, Bool.false_or] at h
      rw [List.map_cons, if_neg (by simp [hp])]
      simp only [getCell, hp]
      exact ih h

theorem getCell_append_single (c : String) (v : Value) :
    ∀ r : Row, r.any (fun p => p.1 == c) = false →
      getCell (r ++ [(c, v)]) c = v := by
  intro r
  induction r with
  | nil => intro _; simp [getCell]
  | cons p rest ih =>
    intro h
    simp only [List.any_cons, Bool.or_eq_false_iff] at h
    simp only [List.cons_append, getCell, h.1]
    exact ih h.2

theorem getCell_setCell_same (r : Row) (c : String) (v : Value) :
    getCell (setCell r c v) c = v := by
  unfold setCell
  by_cases h : r.any (fun p => p.1 == c) = true
  · rw [if_pos h]
    exact getCell_overwrite c v r h
  · rw [if_neg h]
    rw [Bool.not_eq_true] at h
    exact getCell_append_single c v r h

theorem getCell_setCell_ne (r : Row) {c c' : String} (v : Value)
    (hne : c' ≠ c) : getCell (setCell r c v) c' = getCell r c' := by
  have hcc' : ((c : String) == c') = false := by
    simp [Ne.symm hne]
  unfold setCell
  by_cases h : r.any (fun p => p.1 == c) = true
  · rw [if_pos h]
    clear h
    induction r with
    | nil => rfl
    | cons p rest ih =>
      cases hp : (p.1 == c) with
      | true =>
        have hp1 : p.1 = c := by simpa using hp
        rw [List.map_cons, if_pos hp]
        simp only [getCell, hcc', hp1]
        exact ih
      | false =>
        rw [List.map_cons, if_neg (by simp [hp])]
        cases hq : (p.1 == c') with
        | true => simp [getCell, hq]
        | false =>
          simp only [getCell, hq]
          exact ih
  · rw [if_neg h]
    clear h
    induction r with
    | nil => simp [getCell, hcc']
    | cons p rest ih =>
      cases hq : (p.1 == c') with
      | true => simp [getCell, hq]
      | false =>
        simp only [List.cons_append, getCell, hq]
        exact ih

theorem coerceStr_str (s : String) : (Value.str s).coerceStr = s := rfl

/-- The `category_adj` column the stacked plot attaches is exactly the
collapsed value list of the chosen column. -/
theorem stackedTransform_adjVals (limit : Nat) (df : DataFrame)
    (column : String) :
    (stackedTransform limit df column).rows.map adjKeyOf =
      collapseValues limit (coercedVals df column) := by
  unfold stackedTransform collapseValues coercedVals adjKeyOf
  simp only [List.map_map]
  apply List.map_congr_left
  intro r _
  simp only [Function.comp]
  rw [getCell_setCell_same, coerceStr_str, getCell_setCell_same, coerceStr_str]

/-- The frame mutation of the stacked plot does not touch the
`date_month` keys the month axis is built from. -/
theorem stackedTransform_monthKeys (limit : Nat) (df : DataFrame)
    (column : String) :
    (stackedTransform limit df column).rows.map monthKeyOf =
      df.rows.map monthKeyOf := by
  unfold stackedTransform monthKeyOf
  simp only [List.map_map]
  apply List.map_congr_left
  intro r _
  simp only [Function.comp]
  rw [getCell_setCell_ne _ _ (by decide : "date_month" ≠ "category_adj")]
  by_cases hc : "date_month" = column
  · subst hc
    rw [getCell_setCell_same, coerceStr_str]
  · rw [getCell_setCell_ne _ _ hc]

theorem stackedTransform_length (limit : Nat) (df : DataFrame)
    (column : String) :
    (stackedTransform limit df column).rows.length = df.rows.length := by
  unfold stackedTransform
  simp

theorem isValidKey_iff {k : String} :
    isValidKey k = true ↔ ∃ ym, parseYM k = some ym ∧ formatYM ym = k := by
  unfold isValidKey
  cases h : parseYM k with
  | none => simp
  | some ym =>
    simp only [beq_iff_eq]
    constructor
    · intro hf
      exact ⟨ym, rfl, hf⟩
    · rintro ⟨ym', hp, hf⟩
      cases hp
      exact hf

theorem monthKeys_valid {df : DataFrame} (h : validKeys df = true) :
    ∀ k ∈ monthKeys df, isValidKey k = true := by
  intro k hk
  rw [monthKeys, mem_pdUnique, List.mem_map] at hk
  obtain ⟨r, hr, rfl⟩ := hk
  rw [validKeys, List.all_eq_true] at h
  exact h r hr

theorem filterMap_parse_good :
    ∀ ks : List String, (∀ k ∈ ks, isValidKey k = true) →
      ∀ ym ∈ ks.filterMap parseYM,
        parseYM (formatYM ym) = some ym ∧ formatYM ym ∈ ks := by
  intro ks hks ym hym
  rw [List.mem_filterMap] at hym
  obtain ⟨k, hk, hparse⟩ := hym
  obtain ⟨ym', hp, hf⟩ := isValidKey_iff.mp (hks k hk)
  rw [hp] at hparse
  cases hparse
  rw [hf]
  exact ⟨hp, hk⟩

theorem filterMap_parse_nodup :
    ∀ ks : List String, ks.Nodup → (∀ k ∈ ks, isValidKey k = true) →
      (ks.filterMap parseYM).Nodup := by
  intro ks
  induction ks with
  | nil => intro _ _; simp
  | cons k rest ih =>
    intro hnd hval
    rw [List.nodup_cons] at hnd
    obtain ⟨ym₀, hp₀, hf₀⟩ :=
      isValidKey_iff.mp (hval k (List.mem_cons_self k rest))
    have hrest : ∀ k' ∈ rest, isValidKey k' = true :=
      fun k' hk' => hval k' (List.mem_cons_of_mem k hk')
    rw [List.filterMap_cons, hp₀, List.nodup_cons]
    refine ⟨?_, ih hnd.2 hrest⟩
    intro hmem
    have hgood := filterMap_parse_good rest hrest ym₀ hmem
    rw [hf₀] at hgood
    exact hnd.1 hgood.2

/-- On a validated row set `sort_months` succeeds and returns the insertion
sort of the parsed months, printed back. -/
theorem sort_months_of_valid {df : DataFrame} (h : validKeys df = true) :
    sort_months (monthKeys df) =
      some ((List.insertionSort YM.le
        ((monthKeys df).filterMap parseYM)).map formatYM) := by
  have hall : ∀ k ∈ monthKeys df, (parseYM k).isSome := by
    intro k hk
    obtain ⟨ym, hp, _⟩ := isValidKey_iff.mp (monthKeys_valid h k hk)
    rw [hp]
    rfl
  unfold sort_months
  rw [optTraverse_eq_some_of_forall hall]

/-- The month axis of a validated row set is strictly chronological. -/
theorem sorted_months_of_valid {df : DataFrame} (h : validKeys df = true) :
    ∀ months, sort_months (monthKeys df) = some months →
      months.Pairwise monthLT := by
  intro months hsm
  rw [sort_months_of_valid h] at hsm
  cases hsm
  set yms := (monthKeys df).filterMap parseYM with hyms
  have hnodup : yms.Nodup :=
    filterMap_parse_nodup (monthKeys df) (nodup_pdUnique _)
      (monthKeys_valid h)
  have hsorted : (List.insertionSort YM.le yms).Sorted YM.le :=
    List.sorted_insertionSort YM.le yms
  have hnodup' : (List.insertionSort YM.le yms).Nodup :=
    (List.perm_insertionSort YM.le yms).nodup_iff.mpr hnodup
  have hlt : (List.insertionSort YM.le yms).Pairwise YM.lt := by
    have hand := List.Pairwise.and hsorted hnodup'
    exact hand.imp (fun hab => YM.lt_of_le_of_ne hab.1 hab.2)
  have hgood : ∀ ym ∈ List.insertionSort YM.le yms,
      parseYM (formatYM ym) = some ym := by
    intro ym hym
    rw [List.mem_insertionSort] at hym
    exact (filterMap_parse_good (monthKeys df) (monthKeys_valid h) ym
      hym).1
  rw [List.pairwise_map]
  exact hlt.imp_of_mem (fun ha hb hab =>
    ⟨_, _, hgood _ ha, hgood _ hb, hab⟩)

/-- Lemma: `validate_and_summarize` only ever attaches zero-padded `YYYY-MM` keys,
provided the external date parser emits genuine calendar months (month
1..12, year at most four digits — every pandas timestamp satisfies
this). -/
theorem validKeys_validate {parseMonth : Value → Option YM}
    (hpm : ∀ v ym, parseMonth v = some ym →
      ym.year ≤ 9999 ∧ 1 ≤ ym.month ∧ ym.month ≤ 12)
    {df : DataFrame} {df' : DataFrame} {s : String}
    (hok : validate_and_summarize parseMonth df = Except.ok (df', s)) :
    validKeys df' = true := by
  unfold validate_and_summarize at hok
  by_cases hdate : "date" ∈ df.cols
  · rw [if_pos hdate] at hok
    injection hok with hok
    injection hok with hdf hs
    subst hdf
    rw [validKeys, List.all_eq_true]
    intro r hr
    simp only [List.mem_filterMap] at hr
    obtain ⟨r₀, _, hr₀⟩ := hr
    rw [Option.map_eq_some'] at hr₀
    obtain ⟨ym, hym, rfl⟩ := hr₀
    obtain ⟨hy, hm1, hm2⟩ := hpm _ _ hym
    rw [monthKeyOf, getCell_setCell_same, coerceStr_str, isValidKey_iff]
    obtain ⟨yy, mm⟩ := ym
    exact ⟨⟨yy, mm⟩, parseYM_formatYM hy hm1 hm2, rfl⟩
  · rw [if_neg hdate] at hok
    exact absurd hok (by simp)

set_option maxRecDepth 4000 in
theorem containsSub_total_rows (n : Nat) (w : String) :
    containsSub ((toString n ++ " rows").data) (summaryText n w).data =
      true := by
  have hdata : (summaryText n w).data =
      ("\n        Metadata has " : String).data ++
        (((toString n).data ++ (" rows" : String).data) ++
          (((". " : String).data ++ (w.data ++ ("\n    " : String).data)))) := by
    simp only [summaryText, String.data_append, List.append_assoc]
    try simp
  rw [String.data_append, hdata]
  exact containsSub_of_middle _ _ _

set_option maxRecDepth 4000 in
theorem containsSub_dropped_count (n d : Nat) :
    containsSub (toString d).data
      (summaryText n (missingDatesWarning d)).data = true := by
  have hdata : (summaryText n (missingDatesWarning d)).data =
      (("\n        Metadata has " : String).data ++
        ((toString n).data ++
          ((" rows. " : String).data ++ ("\n            " : String).data))) ++
        ((toString d).data ++
          ((" were dropped due to ambiguous/missing date\n            information. A future version of this app may be able to extract months\n            from ambiguous dates.\n        " : String).data ++
            ("\n    " : String).data)) := by
    simp only [summaryText, missingDatesWarning, String.data_append,
      List.append_assoc]
    try simp
  rw [hdata]
  exact containsSub_of_middle _ _ _

theorem demoParse_valid : ∀ v ym, demoParse v = some ym →
    ym.year ≤ 9999 ∧ 1 ≤ ym.month ∧ ym.month ≤ 12 := by
  intro v ym h
  unfold demoParse at h
  split at h <;> first
    | (injection h with h; subst h; exact ⟨by decide, by decide, by decide⟩)
    | exact absurd h (by simp)

/-- C3: with a date column present, `validate_and_summarize` succeeds
without increasing the row count; the surviving rows are exactly the rows
whose date parses (each with the derived `date_month` attached), and the
number of dropped rows is exactly `totalRows - validRowCount`, which equals
the number of rows whose date fails to parse. -/
theorem C3_validate_never_grows_and_drops_exactly
    (parseMonth : Value → Option YM) (df : DataFrame)
    (hdate : "date" ∈ df.cols) :
    ∃ df' s, validate_and_summarize parseMonth df = Except.ok (df', s) ∧
      df'.rows.length ≤ df.rows.length ∧
      df'.rows = df.rows.filterMap (fun r =>
        (parseMonth (getCell r "date")).map (fun ym =>
          setCell r "date_month" (Value.str (formatYM ym)))) ∧
      df'.rows.length =
        df.rows.countP (fun r => (parseMonth (getCell r "date")).isSome) ∧
      df.rows.length - df'.rows.length =
        df.rows.countP (fun r => (parseMonth (getCell r "date")).isNone) := by
  unfold validate_and_summarize
  rw [if_pos hdate]
  refine ⟨_, _, rfl, ?_, rfl, ?_, ?_⟩
  · exact List.length_filterMap_le _ _
  · rw [List.length_filterMap_eq_countP]
    apply List.countP_congr
    intro r _
    simp [monthOfRow]
  · have hvalid : (List.filterMap (fun r =>
        (monthOfRow parseMonth r).map (fun ym =>
          setCell r "date_month" (Value.str (formatYM ym)))) df.rows).length
        = df.rows.countP (fun r => (parseMonth (getCell r "date")).isSome) := by
      rw [List.length_filterMap_eq_countP]
      apply List.countP_congr
      intro r _
      simp [monthOfRow]
    rw [hvalid]
    have hsum : df.rows.countP
          (fun r => (parseMonth (getCell r "date")).isSome) +
        df.rows.countP (fun r => (parseMonth (getCell r "date")).isNone) =
        df.rows.length := by
      induction df.rows with
      | nil => rfl
      | cons r rest ih =>
        simp only [List.countP_cons, List.length_cons]
        cases parseMonth (getCell r "date") <;> simp <;> omega
    omega

/-- C3 witness: a concrete five-row frame with one unparseable date. -/
theorem C3_witness :
    ("date" ∈ (DataFrame.mk ["date"]
      [[("date", Value.str "2021-01-05")], [("date", Value.str "2021-01-20")],
       [("date", Value.str "2021-02-10")], [("date", Value.str "bad-date")],
       [("date", Value.str "2021-02-15")]]).cols) ∧
    (∃ df' s, validate_and_summarize demoParse (DataFrame.mk ["date"]
      [[("date", Value.str "2021-01-05")], [("date", Value.str "2021-01-20")],
       [("date", Value.str "2021-02-10")], [("date", Value.str "bad-date")],
       [("date", Value.str "2021-02-15")]]) = Except.ok (df', s) ∧
      df'.rows.length ≤ 5 ∧
      df'.rows.length = 4 ∧
      5 - df'.rows.length = 1) := by
  refine ⟨by decide, ?_⟩
  obtain ⟨df', s, hok, hle, _, hcount, hdrop⟩ :=
    C3_validate_never_grows_and_drops_exactly demoParse
      (DataFrame.mk ["date"]
        [[("date", Value.str "2021-01-05")], [("date", Value.str "2021-01-20")],
         [("date", Value.str "2021-02-10")], [("date", Value.str "bad-date")],
         [("date", Value.str "2021-02-15")]]) (by decide)
  have hlen : df'.rows.length = 4 := by rw [hcount]; decide
  exact ⟨df', s, hok, by simpa using hle, hlen, by rw [hlen]⟩

/-- C7: `validate_and_summarize` raises exactly when the row set lacks a
`date` column (the `MissingDateColumn` condition); with a `date` column it
never raises, no matter how many individual dates fail to parse; and the
raised error is caught at the load boundary of `local_file_changed` and
surfaced as visible loading text. -/
theorem C7_missing_date_column_fatal :
    (∀ (parseMonth : Value → Option YM) (df : DataFrame),
      ("date" ∉ df.cols ↔ validate_and_summarize parseMonth df =
        Except.error "Metadata must have a date column.")) ∧
    (∀ (parseMonth : Value → Option YM) (df : DataFrame),
      "date" ∈ df.cols →
        ∃ out, validate_and_summarize parseMonth df = Except.ok out) ∧
    (∀ (parseMonth : Value → Option YM) (df : DataFrame) (e : String),
      validate_and_summarize parseMonth df = Except.error e →
        loadBoundaryText parseMonth df = "Failed to load: " ++ e) := by
  refine ⟨?_, ?_, ?_⟩
  · intro parseMonth df
    unfold validate_and_summarize
    by_cases hdate : "date" ∈ df.cols
    · rw [if_pos hdate]
      simp [hdate]
    · rw [if_neg hdate]
      simp [hdate]
  · intro parseMonth df hdate
    unfold validate_and_summarize
    rw [if_pos hdate]
    exact ⟨_, rfl⟩
  · intro parseMonth df e herr
    unfold loadBoundaryText
    rw [herr]

/-- C7 witness: a frame without a `date` column errors and the load
boundary shows the failure text; a frame with one loads. -/
theorem C7_witness :
    ("date" ∉ (DataFrame.mk ["strain"] [[("strain", Value.str "A")]]).cols ↔
      validate_and_summarize demoParse
        (DataFrame.mk ["strain"] [[("strain", Value.str "A")]]) =
        Except.error "Metadata must have a date column.") ∧
    ("date" ∈ (DataFrame.mk ["date"] ([] : List Row)).cols →
      ∃ out, validate_and_summarize demoParse
        (DataFrame.mk ["date"] ([] : List Row)) = Except.ok out) ∧
    (validate_and_summarize demoParse
        (DataFrame.mk ["strain"] [[("strain", Value.str "A")]]) =
        Except.error "Metadata must have a date column." →
      loadBoundaryText demoParse
        (DataFrame.mk ["strain"] [[("strain", Value.str "A")]]) =
        "Failed to load: " ++ "Metadata must have a date column.") :=
  ⟨C7_missing_date_column_fatal.1 demoParse _,
   fun h => C7_missing_date_column_fatal.2.1 demoParse _ h,
   fun h => C7_missing_date_column_fatal.2.2 demoParse _ _ h⟩

/-- C6 (amended): with a date column, validation succeeds and the summary
text states the total row count; when zero rows are dropped no warning text
appears (the text is exactly the warning-free template); when rows are
dropped the dropped count is stated; and empty input is valid with a
summary containing "0 rows".  (The valid-row count itself is not printed —
see the counterexample.) -/
theorem C6_summary_amended (parseMonth : Value → Option YM)
    (df : DataFrame) (hdate : "date" ∈ df.cols) :
    ∃ df' t, validate_and_summarize parseMonth df = Except.ok (df', t) ∧
      containsSub ((toString df.rows.length ++ " rows").data) t.data = true ∧
      (df.rows.length - df'.rows.length = 0 →
        t = summaryText df.rows.length "") ∧
      (0 < df.rows.length - df'.rows.length →
        containsSub (toString (df.rows.length - df'.rows.length)).data
          t.data = true) ∧
      (df.rows = [] → containsSub (("0 rows" : String).data) t.data = true) := by
  unfold validate_and_summarize
  rw [if_pos hdate]
  refine ⟨_, _, rfl, containsSub_total_rows _ _, ?_, ?_, ?_⟩
  · intro h0
    simp only [DataFrame.rows] at h0
    rw [if_neg (by omega)]
  · intro h1
    simp only [DataFrame.rows] at h1
    rw [if_pos h1]
    exact containsSub_dropped_count _ _
  · intro hrows
    rw [hrows]
    simp only [List.filterMap_nil, List.length_nil]
    decide

/-- C6 counterexample: a frame with 3 rows of which exactly 1 is valid
produces a summary that never mentions the valid-row count ("1" does not
occur in the text), refuting the claim that the summary states total,
valid, and dropped counts. -/
theorem C6_counterexample :
    validCountOf (validate_and_summarize demoParse summaryProbeFrame) = 1 ∧
    containsSub (toString (validCountOf
        (validate_and_summarize demoParse summaryProbeFrame))).data
      (summaryOf (validate_and_summarize demoParse summaryProbeFrame)).data
      = false := by
  constructor
  · decide
  · decide

/-- C6 witness: the amended summary facts at the empty frame (0 rows). -/
theorem C6_witness :
    ∃ df' t, validate_and_summarize demoParse
        (DataFrame.mk ["date"] []) = Except.ok (df', t) ∧
      containsSub ((toString (DataFrame.mk ["date"]
        ([] : List Row)).rows.length ++ " rows").data) t.data = true ∧
      ((DataFrame.mk ["date"] ([] : List Row)).rows.length -
          df'.rows.length = 0 →
        t = summaryText (DataFrame.mk ["date"] ([] : List Row)).rows.length "") ∧
      (0 < (DataFrame.mk ["date"] ([] : List Row)).rows.length -
          df'.rows.length →
        containsSub (toString ((DataFrame.mk ["date"]
          ([] : List Row)).rows.length - df'.rows.length)).data t.data
          = true) ∧
      ((DataFrame.mk ["date"] ([] : List Row)).rows = [] →
        containsSub (("0 rows" : String).data) t.data = true) :=
  C6_summary_amended demoParse (DataFrame.mk ["date"] []) (by decide)

/-- C9: every `date_month` bucket key attached by `validate_and_summarize`
is parseable back into a (year, month) pair under the zero-padded `YYYY-MM`
format, so the per-key `strptime` inside `sort_months` never fails on the
distinct month keys of a validated row set (the external date parser is
only assumed to emit genuine calendar months, as every pandas timestamp
is). -/
theorem C9_bucket_keys_parseable (parseMonth : Value → Option YM)
    (hpm : ∀ v ym, parseMonth v = some ym →
      ym.year ≤ 9999 ∧ 1 ≤ ym.month ∧ ym.month ≤ 12)
    (df df' : DataFrame) (s : String)
    (hok : validate_and_summarize parseMonth df = Except.ok (df', s)) :
    validKeys df' = true ∧
    (∀ k ∈ monthKeys df', (parseYM k).isSome) ∧
    (sort_months (monthKeys df')).isSome := by
  have hvk : validKeys df' = true := validKeys_validate hpm hok
  refine ⟨hvk, ?_, ?_⟩
  · intro k hk
    obtain ⟨ym, hp, _⟩ := isValidKey_iff.mp (monthKeys_valid hvk k hk)
    rw [hp]
    rfl
  · rw [sort_months_of_valid hvk]
    rfl

/-- C9 witness: a concrete single-row upload. -/
theorem C9_witness :
    validKeys (DataFrame.mk ["date", "date_month"]
      [[("date", Value.str "2021-01-05"),
        ("date_month", Value.str "2021-01")]]) = true ∧
    (∀ k ∈ monthKeys (DataFrame.mk ["date", "date_month"]
      [[("date", Value.str "2021-01-05"),
        ("date_month", Value.str "2021-01")]]), (parseYM k).isSome) ∧
    (sort_months (monthKeys (DataFrame.mk ["date", "date_month"]
      [[("date", Value.str "2021-01-05"),
        ("date_month", Value.str "2021-01")]]))).isSome :=
  C9_bucket_keys_parseable demoParse demoParse_valid
    (DataFrame.mk ["date"] [[("date", Value.str "2021-01-05")]])
    (DataFrame.mk ["date", "date_month"]
      [[("date", Value.str "2021-01-05"),
        ("date_month", Value.str "2021-01")]])
    (summaryText 1 "") (by rfl)

theorem validKeys_of_perm {df₁ df₂ : DataFrame} (h : validKeys df₁ = true)
    (hp : df₁.rows.Perm df₂.rows) : validKeys df₂ = true := by
  rw [validKeys, List.all_eq_true] at h ⊢
  intro r hr
  exact h r (hp.mem_iff.mpr hr)

theorem plot_per_month_perm {df₁ df₂ : DataFrame}
    (h₁ : validKeys df₁ = true) (hp : df₁.rows.Perm df₂.rows) :
    plot_per_month df₁ = plot_per_month df₂ := by
  have h₂ := validKeys_of_perm h₁ hp
  have hkeys : (monthKeys df₁).Perm (monthKeys df₂) :=
    pdUnique_perm_of_perm (hp.map monthKeyOf)
  have hfm : ((monthKeys df₁).filterMap parseYM).Perm
      ((monthKeys df₂).filterMap parseYM) := hkeys.filterMap _
  have hsorted_eq : List.insertionSort YM.le
        ((monthKeys df₁).filterMap parseYM) =
      List.insertionSort YM.le ((monthKeys df₂).filterMap parseYM) :=
    List.eq_of_perm_of_sorted
      (((List.perm_insertionSort _ _).trans hfm).trans
        (List.perm_insertionSort _ _).symm)
      (List.sorted_insertionSort YM.le _)
      (List.sorted_insertionSort YM.le _)
  have hcounts : ∀ m, df₁.rows.countP (fun r => monthKeyOf r == m) =
      df₂.rows.countP (fun r => monthKeyOf r == m) :=
    fun m => hp.countP_eq _
  unfold plot_per_month
  rw [sort_months_of_valid h₁, sort_months_of_valid h₂, hsorted_eq]
  simp only [hcounts]

/-- C2: `plot_per_month` is independent of the order of the input rows
(its whole result, months and counts, is permutation-invariant); its month
axis is strictly chronological, obtained by parsing each `YYYY-MM` bucket
key back to a date before sorting; and on the claim's example the months
come out chronologically. -/
theorem C2_months_chronological_order_independent :
    (∀ df₁ df₂ : DataFrame, validKeys df₁ = true → df₁.rows.Perm df₂.rows →
      plot_per_month df₁ = plot_per_month df₂) ∧
    (∀ df : DataFrame, validKeys df = true →
      ∃ months counts, plot_per_month df = some (months, counts) ∧
        months.Pairwise monthLT ∧ months.length = counts.length) ∧
    sort_months ["2021-03", "2021-01", "2021-02"] =
      some ["2021-01", "2021-02", "2021-03"] := by
  refine ⟨fun df₁ df₂ h hp => plot_per_month_perm h hp, ?_, by decide⟩
  intro df h
  have hsm := sort_months_of_valid h
  refine ⟨(List.insertionSort YM.le
      ((monthKeys df).filterMap parseYM)).map formatYM,
    ((List.insertionSort YM.le
      ((monthKeys df).filterMap parseYM)).map formatYM).map
        (fun m => df.rows.countP (fun r => monthKeyOf r == m)),
    ?_, ?_, ?_⟩
  · unfold plot_per_month
    rw [hsm]
  · exact sorted_months_of_valid h _ hsm
  · simp

/-- C2 witness: two orderings of the same three-month frame. -/
theorem C2_witness :
    plot_per_month (DataFrame.mk ["date_month"]
      [[("date_month", Value.str "2021-03")],
       [("date_month", Value.str "2021-01")],
       [("date_month", Value.str "2021-02")]]) =
    plot_per_month (DataFrame.mk ["date_month"]
      [[("date_month", Value.str "2021-01")],
       [("date_month", Value.str "2021-02")],
       [("date_month", Value.str "2021-03")]]) ∧
    (∃ months counts, plot_per_month (DataFrame.mk ["date_month"]
      [[("date_month", Value.str "2021-03")],
       [("date_month", Value.str "2021-01")],
       [("date_month", Value.str "2021-02")]]) = some (months, counts) ∧
      months.Pairwise monthLT ∧ months.length = counts.length) :=
  ⟨C2_months_chronological_order_independent.1 _ _ (by decide) (by decide),
   C2_months_chronological_order_independent.2.1 _ (by decide)⟩

theorem nodup_subset_length {l₁ l₂ : List String} (hnd : l₁.Nodup)
    (hsub : ∀ x ∈ l₁, x ∈ l₂) : l₁.length ≤ l₂.length := by
  calc l₁.length = l₁.toFinset.card := (List.toFinset_card_of_nodup hnd).symm
    _ ≤ l₂.toFinset.card := Finset.card_le_card (by
        intro x hx
        rw [List.mem_toFinset] at hx ⊢
        exact hsub x hx)
    _ ≤ l₂.length := List.toFinset_card_le l₂

/-- C1: the stacked plot ranks the distinct string-coerced values of the
chosen column by descending frequency, keeps the top `limit` as their own
labels and relabels everything else to the single catch-all "other", so it
never produces more than `limit + 1` distinct labels; on the claim's
example (`["a","a","a","b","c"]`, limit 1) the labels are `["a","other"]`
with counts 3 and 2. -/
theorem C1_top_n_collapse :
    (∀ (limit : Nat) (df : DataFrame) (column : String),
      column ∈ df.cols → validKeys df = true →
        stackedLabels limit df column =
          pdUnique (collapseValues limit (coercedVals df column)) ∧
        (stackedLabels limit df column).length ≤ limit + 1 ∧
        (∀ u ∈ topColumnValues limit (coercedVals df column),
          ∀ v ∈ coercedVals df column,
            v ∉ topColumnValues limit (coercedVals df column) →
              (coercedVals df column).count v ≤
                (coercedVals df column).count u)) ∧
    (collapseValues 1 ["a", "a", "a", "b", "c"] =
        ["a", "a", "a", "other", "other"] ∧
      pdUnique (collapseValues 1 ["a", "a", "a", "b", "c"]) =
        ["a", "other"] ∧
      (collapseValues 1 ["a", "a", "a", "b", "c"]).count "a" = 3 ∧
      (collapseValues 1 ["a", "a", "a", "b", "c"]).count "other" = 2) := by
  constructor
  · intro limit df column _hcol _hvk
    have hlabels : stackedLabels limit df column =
        pdUnique (collapseValues limit (coercedVals df column)) := by
      unfold stackedLabels
      rw [stackedTransform_adjVals]
    refine ⟨hlabels, ?_, ?_⟩
    · rw [hlabels]
      have hsub : ∀ x ∈ pdUnique (collapseValues limit
          (coercedVals df column)),
          x ∈ topColumnValues limit (coercedVals df column) ++ ["other"] := by
        intro x hx
        rw [mem_pdUnique, collapseValues, List.mem_map] at hx
        obtain ⟨v, _, rfl⟩ := hx
        unfold adjustValue
        by_cases hin : v ∈ topColumnValues limit (coercedVals df column)
        · rw [if_pos hin]
          exact List.mem_append_left _ hin
        · rw [if_neg hin]
          exact List.mem_append_right _ (List.mem_singleton.mpr rfl)
      calc (pdUnique (collapseValues limit (coercedVals df column))).length
          ≤ (topColumnValues limit (coercedVals df column) ++
              ["other"]).length :=
            nodup_subset_length (nodup_pdUnique _) hsub
        _ = (topColumnValues limit (coercedVals df column)).length + 1 := by
            simp
        _ ≤ limit + 1 := by
            have := List.length_take_le limit
              (rankedValues (coercedVals df column))
            unfold topColumnValues
            omega
    · intro u hu v hv hvnot
      have hs : (rankedValues (coercedVals df column)).Pairwise
          (freqGE (coercedVals df column)) :=
        List.sorted_insertionSort _ _
      have hvmem : v ∈ rankedValues (coercedVals df column) := by
        rw [rankedValues, List.mem_insertionSort, mem_pdUnique]
        exact hv
      have hvdrop : v ∈ (rankedValues (coercedVals df column)).drop limit := by
        have hsplit := List.take_append_drop limit
          (rankedValues (coercedVals df column))
        rcases List.mem_append.mp (hsplit ▸ hvmem) with hmem | hmem
        · exact absurd hmem hvnot
        · exact hmem
      exact hs.rel_of_mem_take_of_mem_drop hu hvdrop
  · exact ⟨by decide, by decide, by decide, by decide⟩

/-- C1 witness: a concrete two-category frame at limit 19, plus the
instantiated ranking fact. -/
theorem C1_witness :
    stackedLabels 19 (DataFrame.mk ["date_month", "clade"]
      [[("date_month", Value.str "2021-01"), ("clade", Value.str "A")],
       [("date_month", Value.str "2021-01"), ("clade", Value.str "B")],
       [("date_month", Value.str "2021-02"), ("clade", Value.str "A")]])
      "clade" =
      pdUnique (collapseValues 19 (coercedVals (DataFrame.mk
        ["date_month", "clade"]
        [[("date_month", Value.str "2021-01"), ("clade", Value.str "A")],
         [("date_month", Value.str "2021-01"), ("clade", Value.str "B")],
         [("date_month", Value.str "2021-02"), ("clade", Value.str "A")]])
        "clade")) ∧
    (stackedLabels 19 (DataFrame.mk ["date_month", "clade"]
      [[("date_month", Value.str "2021-01"), ("clade", Value.str "A")],
       [("date_month", Value.str "2021-01"), ("clade", Value.str "B")],
       [("date_month", Value.str "2021-02"), ("clade", Value.str "A")]])
      "clade").length ≤ 20 :=
  ⟨((C1_top_n_collapse.1 19 _ "clade" (by decide) (by decide)).1),
   ((C1_top_n_collapse.1 19 _ "clade" (by decide) (by decide)).2.1)⟩

theorem lookup_label_map (g : String → List Nat) :
    ∀ (ls : List String) (L : String), L ∈ ls →
      List.lookup L (ls.map (fun c => (c, g c))) = some (g L) := by
  intro ls
  induction ls with
  | nil => intro L hL; simp at hL
  | cons c rest ih =>
    intro L hL
    rw [List.map_cons, List.lookup_cons]
    cases hq : (L == c) with
    | true =>
      have : L = c := by simpa using hq
      subst this
      rfl
    | false =>
      have hne : L ≠ c := by simpa using hq
      rcases List.mem_cons.mp hL with h | h
      · exact absurd h hne
      · exact ih L h

/-- C4: whenever the stacked plot produces a result, its data dictionary
has exactly one series per label, every label's series is positionally
aligned with the ordered months (one explicit entry per month, zero
included), and entry `i` of a label's series is the count of rows matching
that label and month `i` — a dense month-by-category matrix. -/
theorem C4_dense_month_category_matrix (limit : Nat) (df : DataFrame)
    (column : String) (months labels : List String)
    (data : List (String × List Nat))
    (hres : plot_stacked_per_monthWith limit df column =
      some (months, labels, data)) :
    data.length = labels.length ∧
    ∀ L ∈ labels, ∃ series, List.lookup L data = some series ∧
      series.length = months.length ∧
      ∀ i, ∀ hi : i < series.length,
        series.get ⟨i, hi⟩ =
          (stackedTransform limit df column).rows.countP
            (fun r => adjKeyOf r == L && monthKeyOf r == months.getD i "") := by
  unfold plot_stacked_per_monthWith at hres
  split at hres
  · exact absurd hres (by simp)
  · rename_i months' hsm
    split at hres
    · split at hres
      · exact absurd hres (by simp)
      · simp only [Option.some.injEq, Prod.mk.injEq] at hres
        obtain ⟨hm, hl, hd⟩ := hres
        subst hm
        subst hl
        subst hd
        constructor
        · rw [List.length_map]
        · intro L hL
          refine ⟨months'.map (fun month =>
            (stackedTransform limit df column).rows.countP
              (fun r => adjKeyOf r == L && monthKeyOf r == month)),
            lookup_label_map _ _ _ hL, by rw [List.length_map], ?_⟩
          intro i hi
          rw [List.length_map] at hi
          rw [List.get_eq_getElem, List.getElem_map,
            List.getD_eq_getElem months' "" hi]
    · exact absurd hres (by simp)

/-- C4 witness: a concrete stacking run with three labels across two
months (the matrix contains explicit zero entries). -/
theorem C4_witness :
    [("A", [1, 0]), ("B", [1, 0]),
        ("C", [0, 1])].length = ["A", "B", "C"].length ∧
    ∀ L ∈ ["A", "B", "C"], ∃ series,
      List.lookup L [("A", [1, 0]), ("B", [1, 0]), ("C", [0, 1])] =
        some series ∧
      series.length = ["2021-01", "2021-02"].length ∧
      ∀ i, ∀ hi : i < series.length,
        series.get ⟨i, hi⟩ =
          (stackedTransform 19 (DataFrame.mk ["date_month", "clade"]
            [[("date_month", Value.str "2021-01"),
              ("clade", Value.str "A")],
             [("date_month", Value.str "2021-01"),
              ("clade", Value.str "B")],
             [("date_month", Value.str "2021-02"),
              ("clade", Value.str "C")]]) "clade").rows.countP
            (fun r => adjKeyOf r == L &&
              monthKeyOf r == ["2021-01", "2021-02"].getD i "") :=
  C4_dense_month_category_matrix 19 (DataFrame.mk ["date_month", "clade"]
    [[("date_month", Value.str "2021-01"), ("clade", Value.str "A")],
     [("date_month", Value.str "2021-01"), ("clade", Value.str "B")],
     [("date_month", Value.str "2021-02"), ("clade", Value.str "C")]])
    "clade" ["2021-01", "2021-02"] ["A", "B", "C"]
    [("A", [1, 0]), ("B", [1, 0]), ("C", [0, 1])] (by decide)

/-- C10: on a validated row set whose chosen column collapses to fewer
than three distinct labels, the palette lookup is undefined and
`plot_stacked_per_month` fails at the color-assignment step, producing no
chart output. -/
theorem C10_palette_underflow (df : DataFrame) (column : String)
    (hcol : column ∈ df.cols) (hvk : validKeys df = true)
    (hlt : (stackedLabels CATEGORY_LIMIT df column).length < 3) :
    Category20 ((stackedLabels CATEGORY_LIMIT df column).length) = none ∧
    plot_stacked_per_month df column = none := by
  have hc20 : Category20
      ((stackedLabels CATEGORY_LIMIT df column).length) = none := by
    unfold Category20
    rw [if_neg (by omega)]
  refine ⟨hc20, ?_⟩
  unfold plot_stacked_per_month plot_stacked_per_monthWith
  simp only [sort_months_of_valid hvk]
  rw [if_pos hcol]
  simp only [hc20]

/-- C10 witness: one distinct label ("A" only) on a validated frame. -/
theorem C10_witness :
    Category20 ((stackedLabels CATEGORY_LIMIT (DataFrame.mk
      ["date_month", "clade"]
      [[("date_month", Value.str "2021-01"), ("clade", Value.str "A")],
       [("date_month", Value.str "2021-02"), ("clade", Value.str "A")]])
      "clade").length) = none ∧
    plot_stacked_per_month (DataFrame.mk ["date_month", "clade"]
      [[("date_month", Value.str "2021-01"), ("clade", Value.str "A")],
       [("date_month", Value.str "2021-02"), ("clade", Value.str "A")]])
      "clade" = none :=
  C10_palette_underflow _ "clade" (by decide) (by decide) (by decide)

/-- C8 counterexample: the stacking step of `plot_stacked_per_month`
overwrites the chosen pre-existing column with its string coercion
(`metadata[column] = metadata[column].astype(str)`): a numeric cell 5
becomes the string "5". -/
theorem C8_counterexample :
    "x" ∈ (DataFrame.mk ["date_month", "x"]
      [[("date_month", Value.str "2021-01"), ("x", Value.num 5)]]).cols ∧
    (stackedTransform CATEGORY_LIMIT (DataFrame.mk ["date_month", "x"]
      [[("date_month", Value.str "2021-01"), ("x", Value.num 5)]])
      "x").rows.map (fun r => getCell r "x") = [Value.str "5"] ∧
    (DataFrame.mk ["date_month", "x"]
      [[("date_month", Value.str "2021-01"),
        ("x", Value.num 5)]]).rows.map (fun r => getCell r "x") =
      [Value.num 5] ∧
    Value.str "5" ≠ Value.num 5 := by
  refine ⟨by decide, by decide, by decide, by decide⟩

/-- C8 (amended): the stacking transformation attaches `category_adj` and
replaces the chosen column by its string coercion; every other pre-existing
column's stored values (in particular `date_month`) are unchanged, and the
row count is preserved.  (When the chosen column already holds strings the
replacement is the identity, so only non-string columns are visibly
mutated.) -/
theorem C8_mutation_only_by_derivation (limit : Nat) (df : DataFrame)
    (column c : String) (hc1 : c ≠ column) (hc2 : c ≠ "category_adj") :
    (stackedTransform limit df column).rows.map (fun r => getCell r c) =
      df.rows.map (fun r => getCell r c) ∧
    (stackedTransform limit df column).rows.length = df.rows.length ∧
    (column ≠ "category_adj" →
      (stackedTransform limit df column).rows.map
          (fun r => getCell r column) =
        df.rows.map (fun r => Value.str (getCell r column).coerceStr)) := by
  refine ⟨?_, stackedTransform_length limit df column, ?_⟩
  · unfold stackedTransform
    simp only [List.map_map]
    apply List.map_congr_left
    intro r _
    simp only [Function.comp]
    rw [getCell_setCell_ne _ _ hc2, getCell_setCell_ne _ _ hc1]
  · intro hcol
    unfold stackedTransform
    simp only [List.map_map]
    apply List.map_congr_left
    intro r _
    simp only [Function.comp]
    rw [getCell_setCell_ne _ _ hcol, getCell_setCell_same]

/-- C8 witness: the `date_month` column survives the stacking
transformation of the counterexample frame unchanged. -/
theorem C8_witness :
    (stackedTransform 19 (DataFrame.mk ["date_month", "x"]
      [[("date_month", Value.str "2021-01"), ("x", Value.num 5)]])
      "x").rows.map (fun r => getCell r "date_month") =
      (DataFrame.mk ["date_month", "x"]
        [[("date_month", Value.str "2021-01"),
          ("x", Value.num 5)]]).rows.map (fun r => getCell r "date_month") ∧
    (stackedTransform 19 (DataFrame.mk ["date_month", "x"]
      [[("date_month", Value.str "2021-01"), ("x", Value.num 5)]])
      "x").rows.length = (DataFrame.mk ["date_month", "x"]
        [[("date_month", Value.str "2021-01"),
          ("x", Value.num 5)]]).rows.length ∧
    ("x" ≠ "category_adj" →
      (stackedTransform 19 (DataFrame.mk ["date_month", "x"]
        [[("date_month", Value.str "2021-01"), ("x", Value.num 5)]])
        "x").rows.map (fun r => getCell r "x") =
        (DataFrame.mk ["date_month", "x"]
          [[("date_month", Value.str "2021-01"),
            ("x", Value.num 5)]]).rows.map
          (fun r => Value.str (getCell r "x").coerceStr)) :=
  C8_mutation_only_by_derivation 19 _ "x" "date_month"
    (by decide) (by decide)

/-- C5 (amended): `get_metadata` is memoized by a time-to-live cache keyed
by its single argument.  For a remote source the argument is the URL
string, so re-running with the same URL within the time-to-live returns
the first result without running fetch/parse again.  A local upload,
however, wraps its bytes in a fresh byte-stream object whose identity is
the key, so two uploads — even of identical bytes — always run fetch/parse
twice. -/
theorem C5_cache_amended :
    (∀ (α : Type) (fetchParse : SourceKey → α) (ttl now₁ now₂ : Nat)
        (u : String) (st₀ : CacheState α),
      cacheLookup st₀.entries now₁ (SourceKey.url u) = none →
      now₂ < now₁ + ttl →
      (get_metadata fetchParse ttl now₂ (SourceKey.url u)
          (get_metadata fetchParse ttl now₁ (SourceKey.url u) st₀).2).1 =
        (get_metadata fetchParse ttl now₁ (SourceKey.url u) st₀).1 ∧
      (get_metadata fetchParse ttl now₂ (SourceKey.url u)
            (get_metadata fetchParse ttl now₁
              (SourceKey.url u) st₀).2).2.fetchCount =
        (get_metadata fetchParse ttl now₁
          (SourceKey.url u) st₀).2.fetchCount) ∧
    (∀ (α : Type) (fetchParse : SourceKey → α) (ttl : Nat) (bytes : String)
        (t₁ t₂ : Nat),
      (runLocalUploads fetchParse ttl 0 [(bytes, t₁), (bytes, t₂)]
        (emptyCache α)).fetchCount = 2) := by
  constructor
  · intro α fetchParse ttl now₁ now₂ u st₀ hmiss hlt
    unfold get_metadata
    rw [hmiss]
    unfold cacheLookup
    simp [List.find?, hlt]
  · intro α fetchParse ttl bytes t₁ t₂
    unfold runLocalUploads
    unfold get_metadata cacheLookup
    simp [List.find?, runLocalUploads, get_metadata, cacheLookup,
      emptyCache]

/-- C5 counterexample: uploading the same raw bytes twice within the
time-to-live still runs fetch/parse twice (the key is the fresh stream
handle, not a bytes fingerprint); the spec-modelled fingerprint keying
would have fetched once. -/
theorem C5_counterexample :
    (runLocalUploads (fun _ => (0 : Nat)) 86400 0
      [("SAMEBYTES", 0), ("SAMEBYTES", 1)] (emptyCache Nat)).fetchCount
      = 2 ∧
    (runLocalUploadsByFingerprint (fun _ => (0 : Nat)) 86400
      [("SAMEBYTES", 0), ("SAMEBYTES", 1)] (emptyCache Nat)).fetchCount
      = 1 := by
  exact ⟨by decide, by decide⟩

/-- C5 witness: a concrete remote URL hit within the time-to-live. -/
theorem C5_witness :
    (get_metadata (fun _ => (7 : Nat)) 86400 3600
        (SourceKey.url "https://data.example/metadata.tsv")
        (get_metadata (fun _ => (7 : Nat)) 86400 0
          (SourceKey.url "https://data.example/metadata.tsv")
          (emptyCache Nat)).2).1 =
      (get_metadata (fun _ => (7 : Nat)) 86400 0
        (SourceKey.url "https://data.example/metadata.tsv")
        (emptyCache Nat)).1 ∧
    (get_metadata (fun _ => (7 : Nat)) 86400 3600
        (SourceKey.url "https://data.example/metadata.tsv")
        (get_metadata (fun _ => (7 : Nat)) 86400 0
          (SourceKey.url "https://data.example/metadata.tsv")
          (emptyCache Nat)).2).2.fetchCount =
      (get_metadata (fun _ => (7 : Nat)) 86400 0
        (SourceKey.url "https://data.example/metadata.tsv")
        (emptyCache Nat)).2.fetchCount :=
  C5_cache_amended.1 Nat (fun _ => 7) 86400 0 3600
    "https://data.example/metadata.tsv" (emptyCache Nat)
    (by decide) (by decide)

end MetadataExplorer
